import Mathlib

/-
Shallow embedding of py2neo's REST client core (src/py2neo/rest.py) together
with the Gremlin helper's collaborator view.  Python strings are modelled as
List Char, Python numbers as Int, JSON-able Python objects (including the
None singleton) as the inductive JVal below, and the wall clock as an Int
parameter threaded through the operations that call time.time().
-/

/-- JSON-able Python values.  jnull is the Python None singleton (json.loads
returns it for the literal null, and the code assigns None to bodies). -/
inductive JVal where
  | jnull : JVal
  | jbool : Bool → JVal
  | jnum : Int → JVal
  | jstr : List Char → JVal
  | jarr : List JVal → JVal
  | jobj : List (List Char × JVal) → JVal
deriving Repr

/-- Python truthiness of a JVal (bool(x)). -/
def JVal.truthy : JVal → Bool
  | .jnull => false
  | .jbool b => b
  | .jnum n => !(n == 0)
  | .jstr s => !s.isEmpty
  | .jarr xs => !xs.isEmpty
  | .jobj kvs => !kvs.isEmpty

/-- Whether a JVal is the Python None singleton (x is None). -/
def JVal.isNull : JVal → Bool
  | .jnull => true
  | _ => false

/-- Items of a Python mapping value; non-mapping values have no items
(dict.update is only ever applied to mappings in the modelled scenarios). -/
def JVal.items : JVal → List (List Char × JVal)
  | .jobj kvs => kvs
  | _ => []

/-- Escape of one character inside a JSON string literal, as json.dumps
performs it for the printable characters exercised here. -/
def jsonEscapeChar (c : Char) : List Char :=
  if c = '"' ∨ c = '\\' then ['\\', c] else [c]

/-- Escape of a whole string body for a JSON string literal. -/
def jsonEscape (s : List Char) : List Char :=
  s.flatMap jsonEscapeChar

/-- Comma-space join, json.dumps' default item separator. -/
def commaJoin (xs : List (List Char)) : List Char :=
  List.intercalate [',', ' '] xs

mutual

/-- json.dumps: serialization of a JSON-able Python value to its wire text. -/
def dumps : JVal → List Char
  | .jnull => ['n', 'u', 'l', 'l']
  | .jbool true => ['t', 'r', 'u', 'e']
  | .jbool false => ['f', 'a', 'l', 's', 'e']
  | .jnum n => (toString n).toList
  | .jstr s => '"' :: (jsonEscape s ++ ['"'])
  | .jarr xs => '[' :: (commaJoin (dumpsList xs) ++ [']'])
  | .jobj kvs => '\x7b' :: (commaJoin (dumpsPairs kvs) ++ ['\x7d'])

/-- Serializations of the elements of a JSON array. -/
def dumpsList : List JVal → List (List Char)
  | [] => []
  | v :: vs => dumps v :: dumpsList vs

/-- Serializations of the key-value pairs of a JSON object. -/
def dumpsPairs : List (List Char × JVal) → List (List Char)
  | [] => []
  | kv :: kvs =>
      ('"' :: (jsonEscape kv.1 ++ ['"', ':', ' '] ++ dumps kv.2)) :: dumpsPairs kvs

end

/-- Python dict membership (key in d) for an association list. -/
def dictContains (d : List (List Char × JVal)) (k : List Char) : Bool :=
  d.any (fun kv => kv.1 == k)

/-- Python dict item read d[k], defaulting to None off the modelled path. -/
def dictGetD (d : List (List Char × JVal)) (k : List Char) : JVal :=
  match d.find? (fun kv => kv.1 == k) with
  | some kv => kv.2
  | none => .jnull

/-- Python dict item write d[k] = v: replace in place or append. -/
def dictSet (d : List (List Char × JVal)) (k : List Char) (v : JVal) :
    List (List Char × JVal) :=
  if d.any (fun kv => kv.1 == k) then
    d.map (fun kv => if kv.1 == k then (k, v) else kv)
  else
    d ++ [(k, v)]

/-- Python dict.update(kvs): set each item of kvs in order. -/
def dictUpdate (d : List (List Char × JVal)) (kvs : List (List Char × JVal)) :
    List (List Char × JVal) :=
  kvs.foldl (fun acc kv => dictSet acc kv.1 kv.2) d

/-- PropertyCache state: _properties, max_age and _last_updated_time.
Timestamps and ages are Int-valued clock readings (time.time()). -/
structure PropertyCache where
  props : List (List Char × JVal)
  max_age : Option Int
  last_updated_time : Option Int
deriving Repr

/-- Python truthiness of an optional number (None is falsy, 0 is falsy). -/
def pyTruthyNum : Option Int → Bool
  | none => false
  | some n => !(n == 0)

/-- Python truthiness of the value of an Option Bool-valued expression,
where none stands for the Python None result. -/
def pyTruthy : Option Bool → Bool
  | none => false
  | some b => b

/-- PropertyCache.expired evaluated at clock reading now: when
_last_updated_time and max_age are both truthy it is the boolean
time.time() - _last_updated_time > max_age, otherwise the Python None. -/
def PropertyCache.expired (c : PropertyCache) (now : Int) : Option Bool :=
  match c.last_updated_time, c.max_age with
  | some t, some m =>
      if !(t == 0) && !(m == 0) then some (decide (now - t > m)) else none
  | some _, none => none
  | none, _ => none

/-- PropertyCache.needs_update at clock reading now: the Python value of
not self._properties or self.expired. -/
def PropertyCache.needs_update (c : PropertyCache) (now : Int) : Option Bool :=
  if c.props.isEmpty then some true else c.expired now

/-- PropertyCache.update(properties) at clock reading now: clear the dict,
update from properties when truthy, stamp the current time. -/
def PropertyCache.update (c : PropertyCache) (properties : JVal) (now : Int) :
    PropertyCache :=
  { c with
    props := if properties.truthy then dictUpdate [] properties.items else [],
    last_updated_time := some now }

/-- PropertyCache.clear(): self.update(None). -/
def PropertyCache.clear (c : PropertyCache) (now : Int) : PropertyCache :=
  c.update .jnull now

/-- Python dict.get(key, default). -/
def dictGetOr (d : List (List Char × JVal)) (k : List Char) (default : JVal) :
    JVal :=
  match d.find? (fun kv => kv.1 == k) with
  | some kv => kv.2
  | none => default

/-- Helper for str.rpartition: locate the last occurrence of sep in s and
return the pieces strictly before it and strictly after it.  The recursion
prefers an occurrence inside the tail (a later position) over one at the
head, which is exactly rightmost-partition. -/
def rpartGo (sep : List Char) : List Char → Option (List Char × List Char)
  | [] => if sep.isPrefixOf ([] : List Char) then some ([], []) else none
  | c :: cs =>
    match rpartGo sep cs with
    | some (h, t) => some (c :: h, t)
    | none =>
        if sep.isPrefixOf (c :: cs) then
          some ([], (c :: cs).drop sep.length)
        else
          none

/-- Python str.rpartition(sep): (head, sep, tail) split at the last
occurrence of sep; when sep does not occur, three pieces ("", "", s); an
empty separator raises ValueError, modelled as none. -/
def strRPartition (s sep : List Char) :
    Option (List Char × List Char × List Char) :=
  if sep.isEmpty then none
  else
    match rpartGo sep s with
    | some (h, t) => some (h, sep, t)
    | none => some ([], [], s)

/-- URI value object: base is bits[0] of the rpartition, reference is the
join of bits[1:]. -/
structure URI where
  base : List Char
  reference : List Char
deriving Repr, DecidableEq

/-- URI.__init__(uri, marker): rpartition around the marker; none models
the ValueError Python raises when the marker is the empty string. -/
def URI.make (uri marker : List Char) : Option URI :=
  match strRPartition uri marker with
  | some bits => some { base := bits.1, reference := bits.2.1 ++ bits.2.2 }
  | none => none

/-- URI.__repr__ (the rendering used by str): base + reference. -/
def URI.str (u : URI) : List Char :=
  u.base ++ u.reference

/-- URI.__eq__: str(self) == str(other). -/
def URI.eq (u v : URI) : Bool :=
  u.str == v.str

/-- sep occurs in s at position i. -/
def occursAt (sep s : List Char) (i : Nat) : Bool :=
  sep.isPrefixOf (s.drop i)

/-
The connection client (class Client).  The network is an oracle: for each
hop of a logical send, a function from the attempt counter (1, 2, 3) to the
outcome httplib produces for http.request/getresponse on that try.
-/

/-- The undecoded result of one successful HTTP exchange: status code, the
Location header (getheader("Location")) and the raw body text (rs.read()). -/
structure RawResponse where
  status : Nat
  location : Option (List Char)
  rawBody : List Char
deriving Repr, DecidableEq

/-- Outcome of one http.request/getresponse attempt: a response, an
httplib.HTTPException, or a socket.error (identified by an opaque code). -/
inductive Attempt where
  | ok : RawResponse → Attempt
  | httpExn : Attempt
  | sockErr : Nat → Attempt
deriving Repr, DecidableEq

/-- Record of one iteration of the retry loop in Client._send_request: the
reconnect flag passed to self._connection (true forces replacement of the
cached connection handle) and the body text passed to http.request
(none when the data variable is None). -/
structure AttemptLog where
  reconnect : Bool
  payload : Option (List Char)
deriving Repr, DecidableEq

/-- Exception escaping Client._send_request: the httplib.HTTPException
re-raised on the final try, or a socket.error which the loop never
catches and therefore propagates from whichever try raised it. -/
inductive ReqError where
  | httpException : ReqError
  | socketError : Nat → ReqError
deriving Repr, DecidableEq

/-- The retry loop of Client._send_request (for tries in range(1, 4)).
data holds the Python variable of the same name: when it is not None the
loop reassigns data = json.dumps(data) and passes the resulting string to
http.request, so on later tries the already-serialized string is
serialized again.  On HTTPException: when tries < 3 set reconnect and
continue, otherwise re-raise.  A socket.error is not caught here.  The
none result models falling off the loop (Python would return None);
starting from [1, 2, 3] that never happens. -/
def sendRequestLoop (o : Nat → Attempt) :
    List Nat → JVal → Bool → List AttemptLog × Option (Except ReqError RawResponse)
  | [], _, _ => ([], none)
  | t :: ts, data, reconnect =>
    let payload : Option (List Char) :=
      if data.isNull then none else some (dumps data)
    let log : AttemptLog := { reconnect := reconnect, payload := payload }
    let dataNext : JVal :=
      match payload with
      | none => .jnull
      | some s => .jstr s
    match o t with
    | .ok r => ([log], some (.ok r))
    | .sockErr e => ([log], some (.error (.socketError e)))
    | .httpExn =>
      if t < 3 then
        let rest := sendRequestLoop o ts dataNext true
        (log :: rest.1, rest.2)
      else
        ([log], some (.error .httpException))

/-- Client._send_request(method, uri, data): run the retry loop over tries
1, 2, 3 with reconnect initially False. -/
def sendRequest (o : Nat → Attempt) (data : JVal) :
    List AttemptLog × Option (Except ReqError RawResponse) :=
  sendRequestLoop o [1, 2, 3] data false

/-- Request value object: graph_db handle (opaque), method, uri, body.
The uri field is the one redirect handling overwrites in place. -/
structure Request where
  graph_db : Nat
  method : List Char
  uri : List Char
  body : JVal
deriving Repr

/-- Response value object: graph_db, status, str(uri), the Location header
and the decoded body (jnull when decoding failed or the body was null). -/
structure Response where
  graph_db : Nat
  status : Nat
  uri : List Char
  location : Option (List Char)
  body : JVal
deriving Repr

/-- AUTO_REDIRECTS = [301, 302, 303, 307, 308]. -/
def AUTO_REDIRECTS : List Nat := [301, 302, 303, 307, 308]

/-- One hop's view of the network: the attempt oracle Client._send_request
consumes on that hop. -/
def Hop : Type := Nat → Attempt

/-- Record of one recursive Client.send level: the request method, uri and
body current when _send_request was called, plus its attempt log. -/
structure HopLog where
  method : List Char
  uri : List Char
  body : JVal
  attempts : List AttemptLog
deriving Repr

/-- Overall outcome of Client.send: a Response, a propagated exception from
_send_request, or oracleOut, the model artifact for a hop list too short
for the redirect chain (the real code would simply keep going). -/
inductive SendResult where
  | resp : Response → SendResult
  | reqError : ReqError → SendResult
  | oracleOut : SendResult
deriving Repr

/-- str(None): the rendering Python gives a missing Location header once it
is stored into request.uri and later stringified. -/
def pyStrNone : List Char := ['N', 'o', 'n', 'e']

/-- Client.send(request): call _send_request; on a status in AUTO_REDIRECTS
discard the body, overwrite request.uri with the Location header and
recurse; otherwise decode the body with json.loads (loads, a parameter
standing for the json library: some v on success, none on ValueError,
in which case the body becomes None) and build the Response. -/
def clientSend (loads : List Char → Option JVal) :
    List Hop → Request → List HopLog × SendResult
  | [], _ => ([], .oracleOut)
  | hop :: rest, req =>
    let sr := sendRequest hop req.body
    let hlog : HopLog :=
      { method := req.method, uri := req.uri, body := req.body, attempts := sr.1 }
    match sr.2 with
    | none => ([hlog], .oracleOut)
    | some (.error e) => ([hlog], .reqError e)
    | some (.ok rs) =>
      if rs.status ∈ AUTO_REDIRECTS then
        let newUri : List Char :=
          match rs.location with
          | some loc => loc
          | none => pyStrNone
        let out := clientSend loads rest { req with uri := newUri }
        (hlog :: out.1, out.2)
      else
        ([hlog],
         .resp
           { graph_db := req.graph_db, status := rs.status, uri := req.uri,
             location := rs.location,
             body :=
               match loads rs.rawBody with
               | some v => v
               | none => .jnull })

/-
The Resource abstraction (class Resource): status-code dispatch in
Resource._send and the lazy metadata lookup in Resource._lookup.
-/

/-- The single argument stored into SocketError's uri attribute: the code
passes the caught socket.error object, the documented intent is the
request URI string. -/
inductive SocketErrorArg where
  | errObj : Nat → SocketErrorArg
  | uriStr : List Char → SocketErrorArg
deriving Repr, DecidableEq

/-- Exceptions observable from Resource._send and Resource._lookup. -/
inductive PyException where
  | badRequest : JVal → PyException
  | resourceNotFound : List Char → PyException
  | resourceConflict : List Char → PyException
  | systemError : JVal → PyException
  | socketError : SocketErrorArg → PyException
  | httpException : PyException
  | keyError : List Char → PyException
  | attributeError : PyException
deriving Repr

/-- Result of Resource._send: a returned value (a Response, or None for
204 and for every unmapped status), a raised exception, or the model
artifact for an exhausted hop oracle. -/
inductive ResourceResult where
  | ok : Option Response → ResourceResult
  | exn : PyException → ResourceResult
  | stuck : ResourceResult
deriving Repr

/-- The status dispatch of Resource._send applied to what the client call
produced, with req the request object as it stands after Client.send has
rewritten its uri across redirects.  A socket.error is caught and
re-raised as SocketError(err); an HTTPException is not a socket.error, so
it escapes unconverted. -/
def resourceSend (req : Request) (sr : SendResult) : ResourceResult :=
  match sr with
  | .oracleOut => .stuck
  | .reqError .httpException => .exn .httpException
  | .reqError (.socketError e) => .exn (.socketError (.errObj e))
  | .resp response =>
    if response.status = 200 then .ok (some response)
    else if response.status = 201 then .ok (some response)
    else if response.status = 204 then .ok none
    else if response.status = 400 then .exn (.badRequest response.body)
    else if response.status = 404 then .exn (.resourceNotFound req.uri)
    else if response.status = 409 then .exn (.resourceConflict req.uri)
    else if response.status / 100 = 5 then .exn (.systemError response.body)
    else .ok none

/-- Resource._send(request) end to end: run Client.send, then dispatch on
the status with request.uri as mutated by the redirect hops (the uri of
the last _send_request call, i.e. of the last hop log). -/
def resourceSendFull (loads : List Char → Option JVal) (hops : List Hop)
    (req : Request) : ResourceResult :=
  let out := clientSend loads hops req
  let uriFinal : List Char :=
    match out.1.getLast? with
    | some l => l.uri
    | none => req.uri
  resourceSend { req with uri := uriFinal } out.2

/-- Result of Resource._lookup: the value found, a raised exception, or
the oracle-exhausted model artifact. -/
inductive LookupOutcome where
  | value : JVal → LookupOutcome
  | exn : PyException → LookupOutcome
  | stuck : LookupOutcome
deriving Repr

/-- Resource._lookup(key) at clock reading now for a resource whose own URI
renders as uri: when the metadata cache needs_update is truthy, issue one
GET (Request(None, "GET", self._uri)) through Resource._send and replace
the cache with the response body; then read the key from the cache.  The
returned triple is (cache after the call, number of _send calls made,
outcome).  rs.body on a None rs (a 204 or an unmapped status) raises
AttributeError. -/
def resourceLookup (loads : List Char → Option JVal) (hops : List Hop)
    (uri : List Char) (c : PropertyCache) (now : Int) (key : List Char) :
    PropertyCache × Nat × LookupOutcome :=
  if pyTruthy (c.needs_update now) then
    match resourceSendFull loads hops
        { graph_db := 0, method := ['G', 'E', 'T'], uri := uri, body := .jnull } with
    | .stuck => (c, 1, .stuck)
    | .exn e => (c, 1, .exn e)
    | .ok none => (c, 1, .exn .attributeError)
    | .ok (some rs) =>
      let c' := c.update rs.body now
      if dictContains c'.props key then (c', 1, .value (dictGetD c'.props key))
      else (c', 1, .exn (.keyError key))
  else
    if dictContains c.props key then (c, 0, .value (dictGetD c.props key))
    else (c, 0, .exn (.keyError key))

/-- A network hop that answers every try with the given redirect status,
Location value and (discarded) body text. -/
def redirectHop (p : Nat × List Char × List Char) : Hop :=
  fun _ => .ok ⟨p.1, some p.2.1, p.2.2⟩

/-- A network hop that answers every try with the given response. -/
def okHop (r : RawResponse) : Hop :=
  fun _ => .ok r

/-- Network oracle used to exhibit the retry-serialization behavior:
transport failures on tries 1 and 2, success on try 3. -/
def c10Hop : Hop := fun t => if t = 3 then .ok ⟨200, none, []⟩ else .httpExn

/-- The uri attribute of the SocketError a resource send surfaced, when it
surfaced one. -/
def socketErrorUriArg : ResourceResult → Option SocketErrorArg
  | .exn (.socketError a) => some a
  | _ => none

/-- Metadata object used in the lookup scenario: a mapping name -> Alice. -/
def aliceObj : JVal :=
  .jobj [(['n', 'a', 'm', 'e'], .jstr ['A', 'l', 'i', 'c', 'e'])]

/-- A json.loads that decodes every body text to the Alice mapping. -/
def aliceLoads : List Char → Option JVal := fun _ => some aliceObj

/-- A network answering every request with an immediate 200. -/
def aliceHops : List Hop := [okHop ⟨200, none, []⟩]

/-- A fresh, never-updated metadata cache with no max_age. -/
def aliceCache0 : PropertyCache := ⟨[], none, none⟩

/-
Theorems.  Claim theorems are named spec_C*, with spec_C*_witness for the
instantiations and spec_C*_counterexample for refutations.
-/

/-- C6: for every PropertyCache state, expired is true only when both
last_updated_time and max_age are set and the elapsed time since
last_updated_time exceeds max_age; it is the undefined value (Python None)
when either is unset; and needs_update is true exactly when the underlying
mapping is empty or expired is true. -/
theorem spec_C6 (c : PropertyCache) (now : Int) :
    (c.expired now = some true →
       c.last_updated_time.isSome = true ∧ c.max_age.isSome = true ∧
         now - c.last_updated_time.getD 0 > c.max_age.getD 0) ∧
    ((c.last_updated_time = none ∨ c.max_age = none) → c.expired now = none) ∧
    (c.needs_update now = some true ↔
       (c.props.isEmpty = true ∨ c.expired now = some true)) := by
  obtain ⟨props, ma, lt⟩ := c
  refine ⟨?_, ?_, ?_⟩
  · intro h
    cases lt with
    | none => simp [PropertyCache.expired] at h
    | some t =>
      cases ma with
      | none => simp [PropertyCache.expired] at h
      | some m =>
        simp only [PropertyCache.expired] at h
        split at h
        · simp only [Option.some.injEq, decide_eq_true_eq] at h
          simpa using h
        · exact absurd h (by simp)
  · intro h
    rcases h with h | h <;> cases lt <;> cases ma <;>
      simp_all [PropertyCache.expired]
  · simp only [PropertyCache.needs_update]
    by_cases hp : props.isEmpty <;> simp [hp]

/-- C6 witness: a cache updated at time 10 with max_age 5 is expired at
time 100, so the theorem's first conjunct applies there. -/
theorem spec_C6_witness :
    (PropertyCache.mk [] (some 5) (some 10)).last_updated_time.isSome = true ∧
    (PropertyCache.mk [] (some 5) (some 10)).max_age.isSome = true ∧
    (100 : Int) - (PropertyCache.mk [] (some 5) (some 10)).last_updated_time.getD 0 >
      (PropertyCache.mk [] (some 5) (some 10)).max_age.getD 0 :=
  (spec_C6 (PropertyCache.mk [] (some 5) (some 10)) 100).1 (by decide)

/-- dict item write never empties a dict. -/
theorem dictSet_ne_nil (d : List (List Char × JVal)) (k : List Char) (v : JVal) :
    dictSet d k v ≠ [] := by
  unfold dictSet
  split
  · cases d with
    | nil => simp_all
    | cons kv d' => simp
  · simp

/-- dict.update starting from a nonempty dict, or fed a nonempty item list,
yields a nonempty dict. -/
theorem dictUpdate_ne_nil (kvs : List (List Char × JVal))
    (acc : List (List Char × JVal)) (h : acc ≠ [] ∨ kvs ≠ []) :
    dictUpdate acc kvs ≠ [] := by
  induction kvs generalizing acc with
  | nil =>
    rcases h with h | h
    · simpa [dictUpdate] using h
    · exact absurd rfl h
  | cons kv rest ih =>
    show dictUpdate (dictSet acc kv.1 kv.2) rest ≠ []
    exact ih (dictSet acc kv.1 kv.2) (Or.inl (dictSet_ne_nil acc kv.1 kv.2))

/-- C7: update replaces the whole mapping independently of the previous
contents and stamps the supplied clock reading; a null or empty argument
leaves the map empty; clear() is update(None); after update(None),
needs_update is true at every later reading; after update with a non-empty
mapping, needs_update is not true at the update instant (for a
non-negative configured max_age) and is true once the elapsed time
exceeds a positive configured max_age (clock readings being positive
epoch seconds). -/
theorem spec_C7 (c c' : PropertyCache) (p : JVal) (t0 t1 : Int) :
    ((c.update p t0).props = (c'.update p t0).props) ∧
    ((c.update p t0).last_updated_time = some t0) ∧
    ((c.update .jnull t0).props = [] ∧ (c.update (.jobj []) t0).props = []) ∧
    (c.clear t0 = c.update .jnull t0) ∧
    ((c.update .jnull t0).needs_update t1 = some true) ∧
    (∀ kvs : List (List Char × JVal), kvs ≠ [] →
       ((∀ m, c.max_age = some m → 0 ≤ m) →
          pyTruthy ((c.update (.jobj kvs) t0).needs_update t0) = false) ∧
       (∀ m, c.max_age = some m → 0 < m → 0 < t0 → t1 - t0 > m →
          (c.update (.jobj kvs) t0).needs_update t1 = some true)) := by
  obtain ⟨cp, cma, clt⟩ := c
  refine ⟨rfl, rfl, ⟨rfl, rfl⟩, rfl, ?_, ?_⟩
  · simp [PropertyCache.update, PropertyCache.needs_update, JVal.truthy]
  · intro kvs hkvs
    have htr : (JVal.jobj kvs).truthy = true := by
      simp [JVal.truthy, List.isEmpty_iff, hkvs]
    have hie : ((PropertyCache.update ⟨cp, cma, clt⟩ (.jobj kvs) t0).props).isEmpty
        = false := by
      have hdu : dictUpdate [] kvs ≠ [] := dictUpdate_ne_nil kvs [] (Or.inr hkvs)
      have hp : (PropertyCache.update ⟨cp, cma, clt⟩ (.jobj kvs) t0).props
          = dictUpdate [] kvs := by
        simp [PropertyCache.update, htr, JVal.items]
      rw [hp]
      simpa [List.isEmpty_iff] using hdu
    have hnu : ∀ s : Int,
        (PropertyCache.update ⟨cp, cma, clt⟩ (.jobj kvs) t0).needs_update s =
          PropertyCache.expired ⟨dictUpdate [] kvs, cma, some t0⟩ s := by
      intro s
      show (if (PropertyCache.update ⟨cp, cma, clt⟩ (.jobj kvs) t0).props.isEmpty
              = true then some true
            else PropertyCache.expired
              (PropertyCache.update ⟨cp, cma, clt⟩ (.jobj kvs) t0) s) = _
      rw [hie]
      simp only [Bool.false_eq_true, if_false]
      rfl
    constructor
    · intro hma
      rw [hnu t0]
      cases cma with
      | none => rfl
      | some m =>
        have hm0 : 0 ≤ m := hma m rfl
        show pyTruthy (if !(t0 == 0) && !(m == 0)
            then some (decide (t0 - t0 > m)) else none) = false
        by_cases h : (!(t0 == 0) && !(m == 0)) = true
        · rw [if_pos h]
          show decide (t0 - t0 > m) = false
          exact decide_eq_false (by omega)
        · rw [if_neg (by simpa using h)]
          rfl
    · intro m hm hmpos ht0 helapsed
      have hcma : cma = some m := hm
      subst hcma
      rw [hnu t1]
      show (if !(t0 == 0) && !(m == 0)
          then some (decide (t1 - t0 > m)) else none) = some true
      have h1 : (t0 == 0) = false := by
        simpa using (by omega : ¬t0 = 0)
      have h2 : (m == 0) = false := by
        simpa using (by omega : ¬m = 0)
      rw [h1, h2]
      simpa using helapsed

/-- C7 witness: updating an empty cache with max_age 5 at time 100 using a
one-entry mapping leaves needs_update untrue at 100 and true at 110. -/
theorem spec_C7_witness :
    pyTruthy ((PropertyCache.update (PropertyCache.mk [] (some 5) none)
        (.jobj [(['k'], .jstr ['v'])]) 100).needs_update 100) = false ∧
    (PropertyCache.update (PropertyCache.mk [] (some 5) none)
        (.jobj [(['k'], .jstr ['v'])]) 100).needs_update 110 = some true := by
  have h := (spec_C7 (PropertyCache.mk [] (some 5) none)
      (PropertyCache.mk [] (some 5) none) .jnull 100 110).2.2.2.2.2
      [(['k'], .jstr ['v'])] (by simp)
  exact ⟨h.1 (by intro m hm; cases hm; norm_num),
    h.2 5 rfl (by norm_num) (by norm_num) (by norm_num)⟩

/-- C1: Client._send_request attempts the exchange at most 3 times; every
retry (every attempt after the first) passes reconnect=True, forcing a
fresh connection; three HTTPExceptions propagate the failure; failures on
tries 1 and 2 followed by success on try 3 yield that try's response, and
the Response Client.send builds from it is identical to the one a
first-attempt success would produce. -/
theorem spec_C1 (o : Hop) (data : JVal) :
    ((sendRequest o data).1.length ≤ 3) ∧
    (∀ l ∈ (sendRequest o data).1.tail, l.reconnect = true) ∧
    (o 1 = .httpExn → o 2 = .httpExn → o 3 = .httpExn →
       (sendRequest o data).2 = some (.error .httpException)) ∧
    (∀ r : RawResponse, o 1 = .httpExn → o 2 = .httpExn → o 3 = .ok r →
       (sendRequest o data).2 = some (.ok r) ∧
       ∀ (loads : List Char → Option JVal) (req : Request),
         (clientSend loads [o] { req with body := data }).2 =
           (clientSend loads [fun _ => .ok r] { req with body := data }).2) := by
  refine ⟨?_, ?_, ?_, ?_⟩
  · cases h1 : o 1 <;> cases h2 : o 2 <;> cases h3 : o 3 <;>
      simp [sendRequest, sendRequestLoop, h1, h2, h3]
  · cases h1 : o 1 <;> cases h2 : o 2 <;> cases h3 : o 3 <;>
      simp [sendRequest, sendRequestLoop, h1, h2, h3]
  · intro h1 h2 h3
    simp [sendRequest, sendRequestLoop, h1, h2, h3]
  · intro r h1 h2 h3
    constructor
    · simp [sendRequest, sendRequestLoop, h1, h2, h3]
    · intro loads req
      by_cases hr : r.status ∈ AUTO_REDIRECTS <;>
        simp [clientSend, sendRequest, sendRequestLoop, h1, h2, h3, hr]

/-- C1 witness: three failures surface the HTTPException; failures then a
success on try 3 return that response, with the Client.send outcome equal
to a first-attempt success's. -/
theorem spec_C1_witness :
    (sendRequest (fun _ => .httpExn) .jnull).2 = some (.error .httpException) ∧
    (sendRequest (fun t => if t = 3 then .ok ⟨200, none, []⟩ else .httpExn)
        .jnull).2 = some (.ok ⟨200, none, []⟩) ∧
    (clientSend (fun _ => none)
        [fun t => if t = 3 then .ok ⟨200, none, []⟩ else .httpExn]
        { graph_db := 1, method := ['G'], uri := ['u'], body := .jnull }).2 =
      (clientSend (fun _ => none) [fun _ => .ok ⟨200, none, []⟩]
        { graph_db := 1, method := ['G'], uri := ['u'], body := .jnull }).2 := by
  have h1 := (spec_C1 (fun _ => .httpExn) .jnull).2.2.1 rfl rfl rfl
  have h2 := (spec_C1 (fun t => if t = 3 then .ok ⟨200, none, []⟩ else .httpExn)
      .jnull).2.2.2 ⟨200, none, []⟩ rfl rfl rfl
  exact ⟨h1, h2.1, h2.2 (fun _ => none)
    { graph_db := 1, method := ['G'], uri := ['u'], body := .jnull }⟩

/-- C10: the wire payload is NOT the same on every try.  With body "x",
try 1 sends dumps("x") but try 2 sends dumps(dumps("x")) and try 3
dumps(dumps(dumps("x"))): the loop reassigns data = json.dumps(data), so
each retry serializes the already-serialized string again. -/
theorem spec_C10 :
    ((sendRequest c10Hop (JVal.jstr ['x'])).1.map AttemptLog.payload ≠
       List.replicate 3 (some (dumps (JVal.jstr ['x'])))) ∧
    ((sendRequest c10Hop (JVal.jstr ['x'])).1.map AttemptLog.payload =
       [some (dumps (JVal.jstr ['x'])),
        some (dumps (JVal.jstr (dumps (JVal.jstr ['x'])))),
        some (dumps (JVal.jstr (dumps (JVal.jstr (dumps (JVal.jstr ['x']))))))]) :=
  ⟨by decide, by decide⟩

/-- C9: for a non-redirect response, a body whose JSON decoding fails
yields a Response with a null body rather than a propagated parse error,
and a decodable body yields a Response carrying the decoded value, the
status, the final URI and the Location header. -/
theorem spec_C9 (loads : List Char → Option JVal) (o : Hop) (r : RawResponse)
    (req : Request) (h1 : o 1 = .ok r) (hnr : r.status ∉ AUTO_REDIRECTS) :
    (loads r.rawBody = none →
       (clientSend loads [o] req).2 =
         .resp ⟨req.graph_db, r.status, req.uri, r.location, .jnull⟩) ∧
    (∀ v, loads r.rawBody = some v →
       (clientSend loads [o] req).2 =
         .resp ⟨req.graph_db, r.status, req.uri, r.location, v⟩) := by
  constructor
  · intro hl
    simp [clientSend, sendRequest, sendRequestLoop, h1, hnr, hl]
  · intro v hl
    simp [clientSend, sendRequest, sendRequestLoop, h1, hnr, hl]

/-- C9 witness: a 200 whose body fails JSON decoding comes back as a
Response with body null. -/
theorem spec_C9_witness :
    (clientSend (fun _ => none) [fun _ => .ok ⟨200, none, ['?']⟩]
        { graph_db := 1, method := ['G'], uri := ['u'], body := .jnull }).2 =
      .resp ⟨1, 200, ['u'], none, .jnull⟩ :=
  (spec_C9 (fun _ => none) (fun _ => .ok ⟨200, none, ['?']⟩) ⟨200, none, ['?']⟩
    { graph_db := 1, method := ['G'], uri := ['u'], body := .jnull }
    rfl (by decide)).1 rfl

/-- C2: a send that meets any number of redirect responses (statuses in
AUTO_REDIRECTS, each carrying a Location) followed by a non-redirect
response returns the Response built from the final response: its status,
Location header and decoded body, and as URI the last Location followed
(the original URI when there was no hop); every hop, however deep, was
issued with the original method and original body.  The redirect bodies
are universally quantified and absent from the conclusion: they are
discarded. -/
theorem spec_C2 (loads : List Char → Option JVal)
    (reds : List (Nat × List Char × List Char)) (r : RawResponse) (req : Request)
    (hred : ∀ p ∈ reds, p.1 ∈ AUTO_REDIRECTS) (hnr : r.status ∉ AUTO_REDIRECTS) :
    ((clientSend loads (reds.map redirectHop ++ [okHop r]) req).2 =
       .resp { graph_db := req.graph_db, status := r.status,
               uri := (reds.map (fun p => p.2.1)).getLastD req.uri,
               location := r.location,
               body := match loads r.rawBody with
                       | some v => v
                       | none => .jnull }) ∧
    ((clientSend loads (reds.map redirectHop ++ [okHop r]) req).1.map
        HopLog.method = List.replicate (reds.length + 1) req.method) ∧
    ((clientSend loads (reds.map redirectHop ++ [okHop r]) req).1.map
        HopLog.body = List.replicate (reds.length + 1) req.body) := by
  revert hred
  induction reds generalizing req with
  | nil =>
    intro hred
    refine ⟨?_, ?_, ?_⟩ <;>
      simp [clientSend, sendRequest, sendRequestLoop, okHop, hnr]
  | cons p ps ih =>
    intro hred
    have hp : p.1 ∈ AUTO_REDIRECTS := hred p (by simp)
    have hps : ∀ q ∈ ps, q.1 ∈ AUTO_REDIRECTS := fun q hq => hred q (by simp [hq])
    obtain ⟨ih1, ih2, ih3⟩ := ih { req with uri := p.2.1 } hps
    refine ⟨?_, ?_, ?_⟩
    · simp only [List.map_cons, List.cons_append, clientSend, sendRequest,
        sendRequestLoop, redirectHop, hp, if_true, List.getLastD_cons]
      simpa using ih1
    · simp only [List.map_cons, List.cons_append, clientSend, sendRequest,
        sendRequestLoop, redirectHop, hp, if_true, List.length_cons,
        List.replicate_succ]
      simpa using ih2
    · simp only [List.map_cons, List.cons_append, clientSend, sendRequest,
        sendRequestLoop, redirectHop, hp, if_true, List.length_cons,
        List.replicate_succ]
      simpa using ih3

/-- C2 witness: a 302 pointing at L followed by a 200 yields the 200
Response with location unset, URI L, decoded body, and both hops carrying
the original method and body. -/
theorem spec_C2_witness :
    ((clientSend (fun _ => some (.jbool true))
        ([((302 : Nat), (['L'], ['b']))].map redirectHop ++
          [okHop ⟨200, none, ['x']⟩])
        { graph_db := 1, method := ['G'], uri := ['u'], body := .jstr ['q'] }).2 =
      .resp { graph_db := 1, status := 200, uri := ['L'], location := none,
              body := .jbool true }) ∧
    ((clientSend (fun _ => some (.jbool true))
        ([((302 : Nat), (['L'], ['b']))].map redirectHop ++
          [okHop ⟨200, none, ['x']⟩])
        { graph_db := 1, method := ['G'], uri := ['u'], body := .jstr ['q'] }).1.map
        HopLog.method = [['G'], ['G']]) ∧
    ((clientSend (fun _ => some (.jbool true))
        ([((302 : Nat), (['L'], ['b']))].map redirectHop ++
          [okHop ⟨200, none, ['x']⟩])
        { graph_db := 1, method := ['G'], uri := ['u'], body := .jstr ['q'] }).1.map
        HopLog.body = [.jstr ['q'], .jstr ['q']]) := by
  have h := spec_C2 (fun _ => some (.jbool true)) [((302 : Nat), (['L'], ['b']))]
    ⟨200, none, ['x']⟩
    { graph_db := 1, method := ['G'], uri := ['u'], body := .jstr ['q'] }
    (by decide) (by decide)
  exact ⟨h.1, h.2.1, h.2.2⟩

/-- C3 (amended): the status dispatch of Resource._send maps 200/201 to the
Response, 204 to None, 400 to BadRequest carrying the response body, 404
to ResourceNotFound and 409 to ResourceConflict carrying the request URI
as it stands at dispatch time (the post-redirect URI), 500-599 to
SystemError carrying the response body, and every other status to an
implicit None return. -/
theorem spec_C3 (req : Request) (r : Response) :
    ((r.status = 200 ∨ r.status = 201) →
       resourceSend req (.resp r) = .ok (some r)) ∧
    (r.status = 204 → resourceSend req (.resp r) = .ok none) ∧
    (r.status = 400 → resourceSend req (.resp r) = .exn (.badRequest r.body)) ∧
    (r.status = 404 →
       resourceSend req (.resp r) = .exn (.resourceNotFound req.uri)) ∧
    (r.status = 409 →
       resourceSend req (.resp r) = .exn (.resourceConflict req.uri)) ∧
    (500 ≤ r.status ∧ r.status ≤ 599 →
       resourceSend req (.resp r) = .exn (.systemError r.body)) ∧
    (r.status ∉ ([200, 201, 204, 400, 404, 409] : List Nat) →
       ¬(500 ≤ r.status ∧ r.status ≤ 599) →
       resourceSend req (.resp r) = .ok none) := by
  refine ⟨?_, ?_, ?_, ?_, ?_, ?_, ?_⟩
  · rintro (h | h) <;> simp [resourceSend, h]
  · intro h; simp [resourceSend, h]
  · intro h; simp [resourceSend, h]
  · intro h; simp [resourceSend, h]
  · intro h; simp [resourceSend, h]
  · rintro ⟨h1, h2⟩
    have e1 : ¬(r.status = 200) := by omega
    have e2 : ¬(r.status = 201) := by omega
    have e3 : ¬(r.status = 204) := by omega
    have e4 : ¬(r.status = 400) := by omega
    have e5 : ¬(r.status = 404) := by omega
    have e6 : ¬(r.status = 409) := by omega
    have e7 : r.status / 100 = 5 := by omega
    simp [resourceSend, e1, e2, e3, e4, e5, e6, e7]
  · intro hmem h5
    simp only [List.mem_cons, List.not_mem_nil, or_false, not_or] at hmem
    obtain ⟨e1, e2, e3, e4, e5, e6⟩ := hmem
    have e7 : ¬(r.status / 100 = 5) := by omega
    simp [resourceSend, e1, e2, e3, e4, e5, e6, e7]

/-- C3 witness: a 404 Response dispatched for a request whose uri is "u"
raises ResourceNotFound carrying "u". -/
theorem spec_C3_witness :
    resourceSend { graph_db := 1, method := ['G'], uri := ['u'], body := .jnull }
        (.resp ⟨1, 404, ['u'], none, .jnull⟩) = .exn (.resourceNotFound ['u']) :=
  (spec_C3 { graph_db := 1, method := ['G'], uri := ['u'], body := .jnull }
    ⟨1, 404, ['u'], none, .jnull⟩).2.2.2.1 rfl

/-- C3 counterexample: a 302 redirect to "L" followed by a 404 raises
ResourceNotFound carrying "L", the redirected URI, not the original
request URI "u": Client.send overwrote request.uri in place. -/
theorem spec_C3_counterexample :
    resourceSendFull (fun _ => none)
        [redirectHop ((302 : Nat), (['L'], ['b'])), okHop ⟨404, none, ['x']⟩]
        { graph_db := 1, method := ['G'], uri := ['u'], body := .jnull } =
      .exn (.resourceNotFound ['L']) ∧ (['L'] : List Char) ≠ ['u'] :=
  ⟨rfl, by decide⟩

/-- C4: on a socket.error (here error object 7) during a send to "u",
Resource._send raises SocketError, but the value stored in its uri
attribute is the caught error object, not the request URI string: the
code raises SocketError(err) where the constructor parameter is named
uri. -/
theorem spec_C4 :
    resourceSendFull (fun _ => none) [fun _ => .sockErr 7]
        { graph_db := 1, method := ['G'], uri := ['u'], body := .jnull } =
      .exn (.socketError (.errObj 7)) ∧
    socketErrorUriArg (resourceSendFull (fun _ => none) [fun _ => .sockErr 7]
        { graph_db := 1, method := ['G'], uri := ['u'], body := .jnull }) ≠
      some (.uriStr ['u']) :=
  ⟨rfl, by decide⟩

/-- C8: when the metadata cache reports needs_update, Resource._lookup
makes exactly one _send (a GET against the resource's own URI, as fixed in
the definition of resourceLookup) and, when that GET returns a Response,
fully replaces the cache with its body before reading the key, failing
with KeyError when the key is absent from the refreshed cache; when the
cache does not need an update it makes zero _send calls and reads the key
from the cache as it stands. -/
theorem spec_C8 (loads : List Char → Option JVal) (hops : List Hop)
    (uri : List Char) (c : PropertyCache) (now : Int) (key : List Char) :
    (pyTruthy (c.needs_update now) = true →
       (resourceLookup loads hops uri c now key).2.1 = 1 ∧
       ∀ rs : Response,
         resourceSendFull loads hops
             { graph_db := 0, method := ['G', 'E', 'T'], uri := uri,
               body := .jnull } = .ok (some rs) →
           (resourceLookup loads hops uri c now key).1 = c.update rs.body now ∧
           (resourceLookup loads hops uri c now key).2.2 =
             (if dictContains (c.update rs.body now).props key then
                .value (dictGetD (c.update rs.body now).props key)
              else .exn (.keyError key))) ∧
    (pyTruthy (c.needs_update now) = false →
       (resourceLookup loads hops uri c now key).2.1 = 0 ∧
       (resourceLookup loads hops uri c now key).1 = c ∧
       (resourceLookup loads hops uri c now key).2.2 =
         (if dictContains c.props key then .value (dictGetD c.props key)
          else .exn (.keyError key))) := by
  constructor
  · intro h
    constructor
    · simp only [resourceLookup, h, if_true]
      cases hr : resourceSendFull loads hops
          { graph_db := 0, method := ['G', 'E', 'T'], uri := uri,
            body := .jnull } with
      | ok o =>
        cases o with
        | none => simp
        | some rs =>
          simp only []
          split <;> simp
      | exn e => simp
      | stuck => simp
    · intro rs hrs
      constructor <;>
        (simp only [resourceLookup, h, if_true, hrs]; split <;> rfl)
  · intro h
    refine ⟨?_, ?_, ?_⟩ <;>
      (simp only [resourceLookup, h, Bool.false_eq_true, if_false]
       first
         | rfl
         | (split <;> rfl))

/-- C8 witness: on a fresh cache, lookup("name") issues one GET, installs
the response mapping and returns "Alice"; a second lookup on the
refreshed cache issues zero GETs, leaves the cache untouched and returns
"Alice" again. -/
theorem spec_C8_witness :
    (resourceLookup aliceLoads aliceHops ['u'] aliceCache0 100
        ['n', 'a', 'm', 'e']).2.1 = 1 ∧
    (resourceLookup aliceLoads aliceHops ['u'] aliceCache0 100
        ['n', 'a', 'm', 'e']).1 = aliceCache0.update aliceObj 100 ∧
    (resourceLookup aliceLoads aliceHops ['u'] aliceCache0 100
        ['n', 'a', 'm', 'e']).2.2 = .value (.jstr ['A', 'l', 'i', 'c', 'e']) ∧
    (resourceLookup aliceLoads aliceHops ['u'] (aliceCache0.update aliceObj 100)
        100 ['n', 'a', 'm', 'e']).2.1 = 0 ∧
    (resourceLookup aliceLoads aliceHops ['u'] (aliceCache0.update aliceObj 100)
        100 ['n', 'a', 'm', 'e']).2.2 =
      .value (.jstr ['A', 'l', 'i', 'c', 'e']) := by
  have h1 := (spec_C8 aliceLoads aliceHops ['u'] aliceCache0 100
      ['n', 'a', 'm', 'e']).1 rfl
  have h1b := h1.2 ⟨0, 200, ['u'], none, aliceObj⟩ rfl
  have h2 := (spec_C8 aliceLoads aliceHops ['u'] (aliceCache0.update aliceObj 100)
      100 ['n', 'a', 'm', 'e']).2 rfl
  exact ⟨h1.1, h1b.1, h1b.2.trans rfl, h2.1, h2.2.2.trans rfl⟩

/-- Elimination of the Bool prefix test into an explicit tail witness. -/
theorem isPrefixOf_exists (l1 l2 : List Char) :
    l1.isPrefixOf l2 = true ↔ ∃ t, l1 ++ t = l2 := by
  rw [ List.isPrefixOf_iff_prefix]
  exact Iff.rfl

/-- Decomposition: a successful rpartGo splits s as head ++ sep ++ tail. -/
theorem rpartGo_eq_some (sep : List Char) :
    ∀ s h t, rpartGo sep s = some (h, t) → s = h ++ sep ++ t := by
  intro s
  induction s with
  | nil =>
    intro h t heq
    simp only [rpartGo] at heq
    split at heq
    · rename_i hpre
      have hsep : sep = [] := by
        cases sep with
        | nil => rfl
        | cons a as => simp [List.isPrefixOf] at hpre
      simp only [Option.some.injEq, Prod.mk.injEq] at heq
      obtain ⟨e1, e2⟩ := heq
      subst e1; subst e2
      simp [hsep]
    · exact absurd heq (by simp)
  | cons c cs ih =>
    intro h t heq
    cases hgo : rpartGo sep cs with
    | some ht' =>
      obtain ⟨h', t'⟩ := ht'
      simp only [rpartGo, hgo, Option.some.injEq, Prod.mk.injEq] at heq
      obtain ⟨e1, e2⟩ := heq
      subst e1; subst e2
      have hcs := ih h' t' hgo
      simp [hcs]
    | none =>
      simp only [rpartGo, hgo] at heq
      split at heq
      · rename_i hpre
        simp only [Option.some.injEq, Prod.mk.injEq] at heq
        obtain ⟨e1, e2⟩ := heq
        subst e1; subst e2
        obtain ⟨t', ht'⟩ := (isPrefixOf_exists _ _).mp hpre
        rw [← ht']
        simp [List.drop_left]
      · exact absurd heq (by simp)

/-- Completeness: if sep occurs anywhere in s, rpartGo finds a split. -/
theorem rpartGo_isSome_of_occurs (sep : List Char) :
    ∀ s i, occursAt sep s i = true → (rpartGo sep s).isSome = true := by
  intro s
  induction s with
  | nil =>
    intro i hi
    have hi' : sep.isPrefixOf ([] : List Char) = true := by
      simpa [occursAt] using hi
    simp [rpartGo, hi']
  | cons c cs ih =>
    intro i hi
    cases hgo : rpartGo sep cs with
    | some ht => simp [rpartGo, hgo]
    | none =>
      cases i with
      | zero =>
        have hi' : sep.isPrefixOf (c :: cs) = true := by
          simpa [occursAt] using hi
        simp [rpartGo, hgo, hi']
      | succ j =>
        have hj : occursAt sep cs j = true := by
          simpa [occursAt] using hi
        have hsome := ih j hj
        rw [hgo] at hsome
        simp at hsome

/-- If rpartGo finds no split, sep occurs nowhere in s. -/
theorem occursAt_false_of_rpartGo_none (sep s : List Char)
    (hnone : rpartGo sep s = none) (i : Nat) : occursAt sep s i = false := by
  cases hoc : occursAt sep s i with
  | false => rfl
  | true =>
    have hsome := rpartGo_isSome_of_occurs sep s i hoc
    rw [hnone] at hsome
    simp at hsome

/-- Maximality: for a nonempty separator, the split found by rpartGo is at
the last occurrence: every occurrence position is at most the head's
length. -/
theorem rpartGo_last (sep : List Char) (hsep : sep ≠ []) :
    ∀ s h t, rpartGo sep s = some (h, t) →
      ∀ j, occursAt sep s j = true → j ≤ h.length := by
  intro s
  induction s with
  | nil =>
    intro h t heq
    simp only [rpartGo] at heq
    split at heq
    · rename_i hpre
      have : sep = [] := by
        cases sep with
        | nil => rfl
        | cons a as => simp [List.isPrefixOf] at hpre
      exact absurd this hsep
    · exact absurd heq (by simp)
  | cons c cs ih =>
    intro h t heq j hj
    cases hgo : rpartGo sep cs with
    | some ht' =>
      obtain ⟨h', t'⟩ := ht'
      simp only [rpartGo, hgo, Option.some.injEq, Prod.mk.injEq] at heq
      obtain ⟨e1, e2⟩ := heq
      subst e1; subst e2
      cases j with
      | zero => simp
      | succ k =>
        have hk : occursAt sep cs k = true := by
          simpa [occursAt] using hj
        have := ih h' t' hgo k hk
        simpa using Nat.succ_le_succ this
    | none =>
      simp only [rpartGo, hgo] at heq
      split at heq
      · simp only [Option.some.injEq, Prod.mk.injEq] at heq
        obtain ⟨e1, e2⟩ := heq
        subst e1; subst e2
        cases j with
        | zero => simp
        | succ k =>
          have hk : occursAt sep cs k = true := by
            simpa [occursAt] using hj
          have hsome := rpartGo_isSome_of_occurs sep cs k hk
          rw [hgo] at hsome
          simp at hsome
      · exact absurd heq (by simp)

/-- C5 (amended): for every string s and NONEMPTY marker m the URI
constructor succeeds and yields base and reference with base ++ reference
= s; when m occurs in s the reference starts with m at the last (maximal)
occurrence position; when m does not occur, base is empty and reference
is s; the string form is always base ++ reference and URI equality is
string equality of that rendering.  (For an empty marker the constructor
raises ValueError: see the counterexample.) -/
theorem spec_C5 :
    (∀ s m u, URI.make s m = some u →
       u.base ++ u.reference = s ∧
       u.str = s ∧
       ((∃ i, occursAt m s i = true) →
          m.isPrefixOf u.reference = true ∧
          occursAt m s u.base.length = true ∧
          ∀ j, occursAt m s j = true → j ≤ u.base.length) ∧
       ((∀ i, occursAt m s i = false) → u.base = [] ∧ u.reference = s)) ∧
    (∀ s m, m ≠ [] → (URI.make s m).isSome = true) ∧
    (∀ u : URI, u.str = u.base ++ u.reference) ∧
    (∀ u v : URI, URI.eq u v = (u.str == v.str)) := by
  refine ⟨?_, ?_, fun u => rfl, fun u v => rfl⟩
  · intro s m u hmk
    simp only [URI.make, strRPartition] at hmk
    by_cases hm : m.isEmpty
    · rw [if_pos hm] at hmk
      simp at hmk
    · rw [if_neg hm] at hmk
      have hmne : m ≠ [] := by simpa [List.isEmpty_iff] using hm
      cases hgo : rpartGo m s with
      | some ht =>
        obtain ⟨h, t⟩ := ht
        rw [hgo] at hmk
        simp only [Option.some.injEq] at hmk
        subst hmk
        have hdec := rpartGo_eq_some m s h t hgo
        have hocc : occursAt m s h.length = true := by
          unfold occursAt
          rw [hdec, List.append_assoc, List.drop_left]
          exact (isPrefixOf_exists _ _).mpr ⟨t, rfl⟩
        refine ⟨?_, ?_, ?_, ?_⟩
        · simp [hdec]
        · simp [URI.str, hdec]
        · intro _
          refine ⟨(isPrefixOf_exists _ _).mpr ⟨t, rfl⟩, hocc, ?_⟩
          intro j hj
          exact rpartGo_last m hmne s h t hgo j hj
        · intro hno
          have := hno h.length
          rw [hocc] at this
          cases this
      | none =>
        rw [hgo] at hmk
        simp only [Option.some.injEq] at hmk
        subst hmk
        refine ⟨by simp, by simp [URI.str], ?_, ?_⟩
        · rintro ⟨i, hi⟩
          have := occursAt_false_of_rpartGo_none m s hgo i
          rw [hi] at this
          cases this
        · intro _
          exact ⟨rfl, by simp⟩
  · intro s m hmne
    have hm : m.isEmpty = false := by simpa [List.isEmpty_iff] using hmne
    simp only [URI.make, strRPartition, hm, Bool.false_eq_true, if_false]
    cases hgo : rpartGo m s with
    | some ht => simp
    | none => simp

/-- C5 counterexample: with marker "" the URI constructor does not yield a
base/reference split at all: str.rpartition("") raises ValueError, so the
claim's universal quantification over every marker fails at the empty
marker. -/
theorem spec_C5_counterexample : URI.make ['a'] [] = none := rfl

/-- C5 witness: splitting "a/nb" around "/n" gives base "a" and reference
"/nb", whose concatenation restores the input, with the reference
starting with the marker; the constructor succeeds on this nonempty
marker. -/
theorem spec_C5_witness :
    (URI.mk ['a'] ['/', 'n', 'b']).base ++ (URI.mk ['a'] ['/', 'n', 'b']).reference
        = ['a', '/', 'n', 'b'] ∧
    (['/', 'n'] : List Char).isPrefixOf (URI.mk ['a'] ['/', 'n', 'b']).reference
        = true ∧
    (URI.make ['a', '/', 'n', 'b'] ['/', 'n']).isSome = true := by
  have h := spec_C5.1 ['a', '/', 'n', 'b'] ['/', 'n'] (URI.mk ['a'] ['/', 'n', 'b'])
    rfl
  exact ⟨h.1, (h.2.2.1 ⟨1, rfl⟩).1,
    spec_C5.2.1 ['a', '/', 'n', 'b'] ['/', 'n'] (by decide)⟩
